import Mathlib

/-!
Verification development for the data streaming service
(src/data_streaming_service/server.py).

The Python source is shallowly embedded below.  JSON payloads are modelled
by the inductive type Json; Python float values are modelled by rationals,
so the numeric reasoning is exact.  Results of the external library call
json.loads are modelled by an Except value (error = JSONDecodeError), and
query parameters by Option String.  The Python coercions int(...) and
float(...) are modelled on decimal literals (sign, digits, optional decimal
point); exotic accepted forms (whitespace, underscores, exponents, inf/nan)
are outside the modelled domain and map to a parse failure.
-/

/-- Json values as produced by json.loads: null, booleans, numbers
(modelled as rationals), strings, arrays and objects.  An object is the
ordered list of its key/value pairs; since json.loads collapses duplicate
keys keeping the last one, lookups below return the last matching pair. -/
inductive Json where
  | null : Json
  | bool (b : Bool) : Json
  | num (q : ℚ) : Json
  | str (s : String) : Json
  | arr (xs : List Json) : Json
  | obj (kvs : List (String × Json)) : Json

mutual

/-- Structural equality on Json values, used to model Python equality of
dictionary keys. -/
def Json.beq : Json → Json → Bool
  | Json.null, Json.null => true
  | Json.bool a, Json.bool b => a == b
  | Json.num a, Json.num b => a == b
  | Json.str a, Json.str b => a == b
  | Json.arr a, Json.arr b => Json.beqList a b
  | Json.obj a, Json.obj b => Json.beqKVs a b
  | _, _ => false

/-- Elementwise equality of Json arrays. -/
def Json.beqList : List Json → List Json → Bool
  | [], [] => true
  | x :: xs, y :: ys => Json.beq x y && Json.beqList xs ys
  | _, _ => false

/-- Pairwise equality of Json object entries. -/
def Json.beqKVs : List (String × Json) → List (String × Json) → Bool
  | [], [] => true
  | (k1, v1) :: xs, (k2, v2) :: ys => k1 == k2 && Json.beq v1 v2 && Json.beqKVs xs ys
  | _, _ => false

end

/-- Lookup of a key in a decoded Json object, mirroring dict.get: the last
binding of the key wins (json.loads keeps the last duplicate). -/
def jsonGet : List (String × Json) → String → Option Json
  | [], _ => none
  | (k, v) :: rest, key =>
    match jsonGet rest key with
    | some r => some r
    | none => if k = key then some v else none

/-- Python truthiness of a decoded Json value (None, False, 0, empty
string/list/dict are falsy). -/
def pyTruthy : Json → Bool
  | Json.null => false
  | Json.bool b => b
  | Json.num q => decide (q ≠ 0)
  | Json.str s => !s.isEmpty
  | Json.arr xs => !xs.isEmpty
  | Json.obj kvs => !kvs.isEmpty

/-- Numeric value of a list of decimal digit characters. -/
def digitsVal (cs : List Char) : Nat :=
  cs.foldl (fun n c => n * 10 + (c.toNat - 48)) 0

/-- Python int(s) on a string: optional sign followed by decimal digits;
anything else raises ValueError, modelled as none. -/
def pyIntStr (s : String) : Option Int :=
  let p : Int × List Char :=
    match s.data with
    | '-' :: rest => (-1, rest)
    | '+' :: rest => (1, rest)
    | cs => (1, cs)
  if p.2.isEmpty then none
  else if p.2.all (fun c => c.isDigit) then some (p.1 * digitsVal p.2)
  else none

/-- Python float(s) on a string: optional sign, then digits with an
optional decimal point (at least one digit overall); anything else raises
ValueError, modelled as none. -/
def pyFloatStr (s : String) : Option ℚ :=
  let p : ℚ × List Char :=
    match s.data with
    | '-' :: rest => (-1, rest)
    | '+' :: rest => (1, rest)
    | cs => (1, cs)
  let ip := p.2.takeWhile (fun c => c ≠ '.')
  let rest := p.2.dropWhile (fun c => c ≠ '.')
  if ip.all (fun c => c.isDigit) then
    match rest with
    | [] => if ip.isEmpty then none else some (p.1 * (digitsVal ip : ℚ))
    | _ :: fp =>
      if fp.all (fun c => c.isDigit) && !(ip.isEmpty && fp.isEmpty) then
        some (p.1 * ((digitsVal ip : ℚ) + (digitsVal fp : ℚ) / (10 : ℚ) ^ fp.length))
      else none
  else none

/-- Python int() truncates a float toward zero. -/
def pyTrunc (q : ℚ) : Int :=
  if q < 0 then Int.ceil q else Int.floor q

/-- Python int(x) applied to a decoded Json value: numbers truncate,
strings parse as decimal integers, booleans give 0/1, and everything else
raises TypeError, modelled as none. -/
def pyIntJson : Json → Option Int
  | Json.num q => some (pyTrunc q)
  | Json.str s => pyIntStr s
  | Json.bool b => some (if b then 1 else 0)
  | _ => none

/-- Python float(x) applied to a decoded Json value: numbers pass through,
strings parse, booleans give 0/1, and everything else raises TypeError,
modelled as none. -/
def pyFloatJson : Json → Option ℚ
  | Json.num q => some q
  | Json.str s => pyFloatStr s
  | Json.bool b => some (if b then 1 else 0)
  | _ => none

/-- Configured default batch size (STREAM_BATCH_SIZE, default 500). -/
def DEFAULT_BATCH_SIZE : Int := 500

/-- Configured maximum batch size (STREAM_MAX_BATCH_SIZE, default 2000). -/
def MAX_BATCH_SIZE : Int := 2000

/-- Embedding of clamp_batch_size (server.py lines 111-116): a falsy raw
value (absent or empty) and an unparseable one fall back to the default;
the result is then clamped into the range from 1 to the maximum. -/
def clamp_batch_size (raw : Option String) : Int :=
  let requested : Int :=
    match raw with
    | none => DEFAULT_BATCH_SIZE
    | some s =>
      if s.isEmpty then DEFAULT_BATCH_SIZE
      else (pyIntStr s).getD DEFAULT_BATCH_SIZE
  max 1 (min requested MAX_BATCH_SIZE)

/-- Embedding of class SimpleMovingAverage (server.py lines 119-133):
period, the FIFO window and the running sum.  Float state is modelled by
rationals. -/
structure SimpleMovingAverage where
  period : Nat
  window : List ℚ
  sum : ℚ
deriving DecidableEq

/-- Embedding of SimpleMovingAverage.__init__: the period is clamped to at
least 1, the window starts empty and the sum at zero. -/
def SimpleMovingAverage.init (period : Int) : SimpleMovingAverage :=
  { period := (max 1 period).toNat, window := [], sum := 0 }

/-- Embedding of SimpleMovingAverage.update (server.py lines 125-133):
append the value and add it to the sum; if the window now exceeds the
period, pop the oldest value and subtract it; return none while the window
is shorter than the period, otherwise the sum divided by the window
length. -/
def SimpleMovingAverage.update (s : SimpleMovingAverage) (value : ℚ) :
    SimpleMovingAverage × Option ℚ :=
  let w := s.window ++ [value]
  let sm := s.sum + value
  let w2 := if w.length > s.period then w.drop 1 else w
  let sm2 := if w.length > s.period then sm - w.headD 0 else sm
  let out := if w2.length < s.period then none else some (sm2 / (w2.length : ℚ))
  ({ s with window := w2, sum := sm2 }, out)

/-- State of a SimpleMovingAverage after feeding a list of values. -/
def smaState (s : SimpleMovingAverage) (xs : List ℚ) : SimpleMovingAverage :=
  xs.foldl (fun st x => (st.update x).1) s

/-- Outputs of a SimpleMovingAverage along a list of values. -/
def smaRun (s : SimpleMovingAverage) : List ℚ → List (Option ℚ)
  | [] => []
  | x :: xs => (s.update x).2 :: smaRun (s.update x).1 xs

/-- Outputs of a fresh SimpleMovingAverage of the given period. -/
def smaOutputs (period : Int) (xs : List ℚ) : List (Option ℚ) :=
  smaRun (SimpleMovingAverage.init period) xs

/-- The last k elements of a list (all of it when k exceeds the length). -/
def lastN (k : Nat) (xs : List ℚ) : List ℚ :=
  xs.drop (xs.length - k)

/-- Outcome of processing one element of the indicator spec list in the
setup loop of _handle_candle_stream (server.py lines 170-186): skipped
(continue), registered with a resolved id and a fresh
SimpleMovingAverage, or an uncaught AttributeError (a truthy non-object
params value) that aborts the whole handler. -/
inductive EntryOutcome where
  | skip : EntryOutcome
  | crash : EntryOutcome
  | reg (id : Json) (impl : SimpleMovingAverage) : EntryOutcome

/-- Whether the entry passes the two guards of the setup loop: it is a
dict and its field named type holds the string sma (server.py lines
171-174). -/
def typeIsSma : Json → Bool
  | Json.obj kvs =>
    match jsonGet kvs "type" with
    | some (Json.str s) => s == "sma"
    | _ => false
  | _ => false

/-- Embedding of the expression spec.get("params") or {} followed by its
use as a dict (server.py line 175): an absent or falsy params value acts
as the empty dict; a truthy object is used as is; a truthy non-object
raises AttributeError on .get, modelled as none. -/
def paramsOrEmpty : Option Json → Option (List (String × Json))
  | none => some []
  | some j =>
    if pyTruthy j then
      match j with
      | Json.obj kvs => some kvs
      | _ => none
    else some []

/-- Embedding of int(period_raw) in the setup loop, applied to the period
value of the params dict (default 20); none when int() raises, which makes
the loop skip the spec (server.py lines 175-179). -/
def periodOf : Json → Option Int
  | Json.obj kvs =>
    (paramsOrEmpty (jsonGet kvs "params")).bind fun d =>
      pyIntJson ((jsonGet d "period").getD (Json.num 20))
  | _ => none

/-- Embedding of spec.get("id") or f"sma-{period_val}" (server.py line
182): a truthy id value is kept, otherwise the default id string is
built from the clamped period. -/
def idOf (kvs : List (String × Json)) (periodVal : Nat) : Json :=
  match jsonGet kvs "id" with
  | some j => if pyTruthy j then j else Json.str ("sma-" ++ toString periodVal)
  | none => Json.str ("sma-" ++ toString periodVal)

/-- Embedding of one iteration of the indicator setup loop (server.py
lines 170-186). -/
def entryOutcome (e : Json) : EntryOutcome :=
  if typeIsSma e then
    match e with
    | Json.obj kvs =>
      match paramsOrEmpty (jsonGet kvs "params") with
      | none => EntryOutcome.crash
      | some d =>
        match pyIntJson ((jsonGet d "period").getD (Json.num 20)) with
        | none => EntryOutcome.skip
        | some n =>
          EntryOutcome.reg (idOf kvs (max 1 n).toNat)
            (SimpleMovingAverage.init n)
    | _ => EntryOutcome.skip
  else EntryOutcome.skip

/-- True exactly when the setup loop appends an instance for this entry. -/
def entryIsRegistered (e : Json) : Bool :=
  match entryOutcome e with
  | EntryOutcome.reg _ _ => true
  | _ => false

/-- Embedding of the whole setup loop over the decoded spec list
(server.py lines 170-186): indicator_instances collects, in order, one
(id, impl) pair per registered spec; a crash aborts the handler, modelled
as none. -/
def buildRegistry : List Json → Option (List (Json × SimpleMovingAverage))
  | [] => some []
  | e :: es =>
    match entryOutcome e with
    | EntryOutcome.crash => none
    | EntryOutcome.skip => buildRegistry es
    | EntryOutcome.reg id impl => (buildRegistry es).map (fun r => (id, impl) :: r)

/-- Overall outcome of the indicators branch of session setup (server.py
lines 164-190): send one ERROR and close (the json.JSONDecodeError
handler), die on an uncaught exception, or proceed into the replay loop
with the built registry. -/
inductive SetupOutcome where
  | fatal : SetupOutcome
  | crash : SetupOutcome
  | started (regs : List (Json × SimpleMovingAverage)) : SetupOutcome

/-- Embedding of the indicators branch of session setup.  The parameter is
the indicators query parameter after the falsiness test and the external
json.loads call: none models an absent or empty parameter, Except.error a
JSONDecodeError, Except.ok the decoded value.  Only a decode error is
fatal; a decoded value that is not a list leaves the registry empty and
the replay loop still starts (the isinstance test on line 169 just skips
the loop). -/
def setupIndicators : Option (Except Unit Json) → SetupOutcome
  | none => SetupOutcome.started []
  | some (Except.error _) => SetupOutcome.fatal
  | some (Except.ok j) =>
    match j with
    | Json.arr entries =>
      match buildRegistry entries with
      | none => SetupOutcome.crash
      | some regs => SetupOutcome.started regs
    | _ => SetupOutcome.started []

/-- Last-binding-wins lookup in a list of writes keyed by Json values:
this is how a Python dict built by repeated assignment answers reads, so
it models indicator_payload (server.py lines 227-231). -/
def lookupLast {α : Type} : List (Json × α) → Json → Option α
  | [], _ => none
  | (k, v) :: rest, key =>
    match lookupLast rest key with
    | some r => some r
    | none => if Json.beq k key then some v else none

/-- Per-record indicator payload writes (server.py lines 227-231): for
each registered instance in registry order, assign its update output to
its id.  Returns the ordered list of dict writes. -/
def indicatorPayload (regs : List (Json × SimpleMovingAverage)) (close : ℚ) :
    List (Json × Option ℚ) :=
  regs.map (fun r => (r.1, (r.2.update close).2))

/-- Pacing tunables with their defaults (server.py lines 22-25):
reference delta 900000 ms, base delay 400 ms, minimum emit delay 1 ms,
maximum emit delay 250 ms. -/
structure PacingTunables where
  referenceDeltaMs : ℚ
  baseDelayMs : ℚ
  minEmitDelayMs : ℚ
  maxEmitDelayMs : ℚ

/-- Embedding of the delay computation of the replay loop (server.py
lines 240-246): normalize the timestamp delta against the reference,
divide by the effective speed, and clamp between the minimum delay and a
speed-dependent dynamic maximum. -/
def pacingDelay (t : PacingTunables) (deltaMs speed : ℚ) : ℚ :=
  let normalized := (deltaMs / t.referenceDeltaMs) * t.baseDelayMs
  let delayMs := normalized / max speed (1/10)
  let dynamicMax := max 20 (t.maxEmitDelayMs / max 1 (speed / 10))
  max t.minEmitDelayMs (min dynamicMax delayMs)

/-- The default tunables of server.py lines 22-25. -/
def defaultTunables : PacingTunables :=
  { referenceDeltaMs := 900000, baseDelayMs := 400
    minEmitDelayMs := 1, maxEmitDelayMs := 250 }

/-- Pacing delay at the default tunables. -/
def pacingDelayDefault (deltaMs speed : ℚ) : ℚ :=
  pacingDelay defaultTunables deltaMs speed

/-- Transcription of the pacing algorithm as the specification text
states it, for comparison with the embedding pacingDelay: normalized,
raw, dynamicMax and a final clamp of raw between minEmitDelayMs and
dynamicMax. -/
def specPacingDelay (t : PacingTunables) (deltaMs speed : ℚ) : ℚ :=
  let normalized := (deltaMs / t.referenceDeltaMs) * t.baseDelayMs
  let raw := normalized / max speed (1/10)
  let dynamicMax := max 20 (t.maxEmitDelayMs / max 1 (speed / 10))
  max t.minEmitDelayMs (min raw dynamicMax)

/-- The shared playback control state of one session (server.py lines
144-149): current speed and paused flag. -/
structure PlaybackControlState where
  speed : ℚ
  paused : Bool
deriving DecidableEq

/-- Embedding of the speed query parameter handling (server.py lines
144-148): absent gives 1.0, a parseable value is clamped to at least 0.1,
and a ValueError also gives 1.0. -/
def initialSpeed : Option String → ℚ
  | none => 1
  | some s =>
    match pyFloatStr s with
    | some v => max (1/10) v
    | none => 1

/-- Initial control state of a session. -/
def initControl (speedRaw : Option String) : PlaybackControlState :=
  { speed := initialSpeed speedRaw, paused := false }

/-- Embedding of one iteration of control_listener (server.py lines
195-209): non-dict messages are ignored; SET_SPEED parses its speed field
with float() and on success clamps to at least 0.1, on TypeError or
ValueError leaves the state unchanged; PAUSE and PLAY set the paused
flag; any other type is ignored. -/
def applyMessage (st : PlaybackControlState) (msg : Json) : PlaybackControlState :=
  match msg with
  | Json.obj kvs =>
    match jsonGet kvs "type" with
    | some (Json.str "SET_SPEED") =>
      match (jsonGet kvs "speed").bind pyFloatJson with
      | some v => { st with speed := max (1/10) v }
      | none => st
    | some (Json.str "PAUSE") => { st with paused := true }
    | some (Json.str "PLAY") => { st with paused := false }
    | _ => st
  | _ => st

/-- Control state after a sequence of inbound messages. -/
def runControl (st : PlaybackControlState) (msgs : List Json) : PlaybackControlState :=
  msgs.foldl applyMessage st

/-- One fetched candle record as normalized by fetch_candles (server.py
lines 90-107); numeric fields are modelled by rationals. -/
structure Record where
  timestamp : ℚ
  symbol : String
  timeframe : String
  datasetId : Option String
  «open» : ℚ
  high : ℚ
  low : ℚ
  close : ℚ
  volume : ℚ
deriving DecidableEq

/-- Cursor change of the replay loop over one batch (server.py lines
224-250): for each row in order, last_timestamp is set to the row
timestamp; an empty batch leaves it untouched (the else branch on line
254 only sleeps). -/
def processBatch (cursor : Option ℚ) (rows : List Record) : Option ℚ :=
  rows.foldl (fun _ r => some r.timestamp) cursor

/-- Cursor after a sequence of fetched batches. -/
def runCursor (cursor : Option ℚ) (batches : List (List Record)) : Option ℚ :=
  batches.foldl processBatch cursor

/-- The filter timestamp > after_timestamp of fetch_candles (server.py
lines 62-64): every returned row lies strictly after the cursor when the
cursor is set. -/
def afterCursorB (cursor : Option ℚ) (t : ℚ) : Bool :=
  match cursor with
  | none => true
  | some x => decide (x < t)

/-- A batch satisfying the data-source filter for the given cursor. -/
def validBatchB (cursor : Option ℚ) (rows : List Record) : Bool :=
  rows.all (fun r => afterCursorB cursor r.timestamp)

/-- A run of batches each satisfying the data-source filter for the
cursor current when it was fetched. -/
def validRunB : Option ℚ → List (List Record) → Bool
  | _, [] => true
  | c, b :: bs => validBatchB c b && validRunB (processBatch c b) bs

/-- Order on cursor values: an unset cursor precedes everything, a set
cursor only set cursors with a larger or equal timestamp. -/
def cursorLeB : Option ℚ → Option ℚ → Bool
  | none, _ => true
  | some _, none => false
  | some x, some y => decide (x ≤ y)

/-- Whether a Json value is an array (the isinstance(specs, list) test of
server.py line 169). -/
def Json.isArr : Json → Bool
  | Json.arr _ => true
  | _ => false

/-- Registration condition as the specification claim words it: the field
named kind holds the string sma.  This definition follows the claim text,
not the source, and exists only to compare the two; the source reads the
field named type instead (server.py line 173). -/
def kindIsSma : Json → Bool
  | Json.obj kvs =>
    match jsonGet kvs "kind" with
    | some (Json.str s) => s == "sma"
    | _ => false
  | _ => false

/-- C1 counterexample: the entry whose field kind is the string sma and
whose period defaults to the coercible value 20 is nevertheless not
registered, because the source tests the field named type, not kind. -/
theorem indicator_registration_kind_field_cex :
    kindIsSma (Json.obj [("kind", Json.str "sma")]) = true ∧
    (periodOf (Json.obj [("kind", Json.str "sma")])).isSome = true ∧
    entryIsRegistered (Json.obj [("kind", Json.str "sma")]) = false := by
  refine ⟨rfl, ?_, rfl⟩
  decide

/-- C1 (amended: the tested field is named type, not kind): an entry of
the indicator spec list is registered if and only if it is an object
whose type field is the string sma and whose period value coerces through
int(); and an entry whose type test fails is silently skipped. -/
theorem indicator_registration_iff_type_sma (e : Json) :
    entryIsRegistered e = (typeIsSma e && (periodOf e).isSome) ∧
    (typeIsSma e = false → entryOutcome e = EntryOutcome.skip) := by
  constructor
  · cases e with
    | obj kvs =>
      cases htype : typeIsSma (Json.obj kvs) with
      | false => simp [entryIsRegistered, entryOutcome, htype, periodOf]
      | true =>
        cases hp : paramsOrEmpty (jsonGet kvs "params") with
        | none => simp [entryIsRegistered, entryOutcome, htype, periodOf, hp]
        | some d =>
          cases hi : pyIntJson ((jsonGet d "period").getD (Json.num 20)) with
          | none => simp [entryIsRegistered, entryOutcome, htype, periodOf, hp, hi]
          | some n => simp [entryIsRegistered, entryOutcome, htype, periodOf, hp, hi]
    | null => rfl
    | bool b => rfl
    | num q => rfl
    | str s => rfl
    | arr xs => rfl
  · intro htype
    cases e <;> simp [entryOutcome, htype]

/-- C1 witness: the amended theorem applied to a concrete entry whose
type test fails. -/
theorem indicator_registration_iff_type_sma_witness :
    entryIsRegistered Json.null = (typeIsSma Json.null && (periodOf Json.null).isSome) ∧
    entryOutcome Json.null = EntryOutcome.skip :=
  ⟨(indicator_registration_iff_type_sma Json.null).1,
   (indicator_registration_iff_type_sma Json.null).2 rfl⟩

/-- C2 counterexample: the requested batch size 0 resolves to 1, the lower
clamp bound, not to the configured default of 500. -/
theorem clamp_batch_size_zero_cex :
    clamp_batch_size (some "0") = 1 ∧ (1 : Int) ≠ DEFAULT_BATCH_SIZE := by
  refine ⟨?_, by decide⟩
  decide

/-- C2 (amended: a parsed value of 0 or below clamps to the minimum 1, it
does not fall back to the default): an unparseable or absent value
resolves to the default batch size, a parsed value of at most 0 resolves
to 1, and a parsed value above the configured maximum resolves to that
maximum. -/
theorem clamp_batch_size_resolution :
    (∀ s n, pyIntStr s = some n → n ≤ 0 → clamp_batch_size (some s) = 1) ∧
    (∀ s, pyIntStr s = none → clamp_batch_size (some s) = DEFAULT_BATCH_SIZE) ∧
    clamp_batch_size none = DEFAULT_BATCH_SIZE ∧
    (∀ s n, pyIntStr s = some n → MAX_BATCH_SIZE < n →
      clamp_batch_size (some s) = MAX_BATCH_SIZE) := by
  have hne : ∀ s n, pyIntStr s = some n → s.isEmpty = false := by
    intro s n hparse
    cases he : s.isEmpty with
    | false => rfl
    | true =>
      exfalso
      rw [String.isEmpty_iff] at he
      subst he
      rw [(by decide : pyIntStr "" = none)] at hparse
      exact Option.noConfusion hparse
  refine ⟨?_, ?_, by decide, ?_⟩
  · intro s n hparse hn
    have h := hne s n hparse
    simp only [clamp_batch_size, h, Bool.false_eq_true, if_false, hparse,
      Option.getD_some]
    unfold MAX_BATCH_SIZE
    omega
  · intro s hparse
    cases he : s.isEmpty with
    | true =>
      simp only [clamp_batch_size, he, if_true]
      decide
    | false =>
      simp only [clamp_batch_size, he, Bool.false_eq_true, if_false, hparse,
        Option.getD_none]
      decide
  · intro s n hparse hn
    have h := hne s n hparse
    simp only [clamp_batch_size, h, Bool.false_eq_true, if_false, hparse,
      Option.getD_some]
    unfold MAX_BATCH_SIZE at hn ⊢
    omega

/-- C2 witness: the amended theorem applied to the concrete requests 0,
abc and 5000. -/
theorem clamp_batch_size_resolution_witness :
    clamp_batch_size (some "0") = 1 ∧
    clamp_batch_size (some "abc") = DEFAULT_BATCH_SIZE ∧
    clamp_batch_size (some "5000") = MAX_BATCH_SIZE :=
  ⟨clamp_batch_size_resolution.1 "0" 0 (by decide) (by decide),
   clamp_batch_size_resolution.2.1 "abc" (by decide),
   clamp_batch_size_resolution.2.2.2 "5000" 5000 (by decide) (by decide)⟩

/-- C3 counterexample: a well-formed indicators parameter whose decoded
value is not a list (here the number 5) is not session-fatal; setup
proceeds into the replay loop with an empty registry. -/
theorem indicators_nonlist_not_fatal_cex :
    setupIndicators (some (Except.ok (Json.num 5))) = SetupOutcome.started [] ∧
    setupIndicators (some (Except.ok (Json.num 5))) ≠ SetupOutcome.fatal :=
  ⟨rfl, fun h => nomatch h⟩

/-- C3 (amended: only malformed JSON is session-fatal): a JSON decode
error sends one ERROR and closes the channel before any replay, while a
decoded value that is not a list is silently ignored and the session
starts with an empty indicator registry. -/
theorem indicators_param_error_handling :
    setupIndicators (some (Except.error ())) = SetupOutcome.fatal ∧
    (∀ j : Json, j.isArr = false →
      setupIndicators (some (Except.ok j)) = SetupOutcome.started []) := by
  refine ⟨rfl, ?_⟩
  intro j hj
  cases j <;> simp_all [setupIndicators, Json.isArr]

/-- C3 witness: the amended theorem applied to the decoded non-list value
5. -/
theorem indicators_param_error_handling_witness :
    setupIndicators (some (Except.ok (Json.num 5))) = SetupOutcome.started [] :=
  indicators_param_error_handling.2 (Json.num 5) rfl

/-- C4 counterexample: two specs with the same id x and periods 2 and 3
both survive registry construction (the list has two entries, the earlier
period-2 instance included), so the registry does not hold only the later
instance. -/
theorem duplicate_id_registry_cex :
    (buildRegistry
        [Json.obj [("type", Json.str "sma"), ("id", Json.str "x"),
                   ("params", Json.obj [("period", Json.num 2)])],
         Json.obj [("type", Json.str "sma"), ("id", Json.str "x"),
                   ("params", Json.obj [("period", Json.num 3)])]]).map
        (fun l => l.map (fun r => r.2.period)) = some [2, 3] ∧
    (buildRegistry
        [Json.obj [("type", Json.str "sma"), ("id", Json.str "x"),
                   ("params", Json.obj [("period", Json.num 2)])],
         Json.obj [("type", Json.str "sma"), ("id", Json.str "x"),
                   ("params", Json.obj [("period", Json.num 3)])]]).map
        List.length ≠ some 1 := by
  constructor
  · decide
  · intro h
    have : (some 2 : Option Nat) = some 1 := by
      calc (some 2 : Option Nat)
          = (buildRegistry
              [Json.obj [("type", Json.str "sma"), ("id", Json.str "x"),
                         ("params", Json.obj [("period", Json.num 2)])],
               Json.obj [("type", Json.str "sma"), ("id", Json.str "x"),
                         ("params", Json.obj [("period", Json.num 3)])]]).map
              List.length := by decide
        _ = some 1 := h
    simp at this

/-- C4 (amended: every registered instance stays in the registry list and
is updated on every record; the per-record indicator dict overwrites
duplicate ids, so the value emitted for a duplicated id is the one
computed by the instance of the last spec with that id): dict reads of
the per-record payload agree with the update output of the last registry
entry whose id matches. -/
theorem duplicate_id_payload_last_wins
    (regs : List (Json × SimpleMovingAverage)) (close : ℚ) (id : Json) :
    lookupLast (indicatorPayload regs close) id =
      (lookupLast regs id).map (fun impl => (impl.update close).2) := by
  unfold indicatorPayload
  induction regs with
  | nil => rfl
  | cons hd tl ih =>
    obtain ⟨k, impl⟩ := hd
    simp only [List.map_cons, lookupLast]
    rw [ih]
    cases h : lookupLast tl id with
    | some r => simp
    | none => cases hb : Json.beq k id <;> simp [hb]

/-- C5: the delay computed by the replay loop equals the formula of the
specification (clamp of the normalized, speed-divided delta between the
minimum delay and the dynamic maximum) for all tunables and inputs, and
at the default tunables a delta of 900000 ms gives 250 ms at speed 1 and
40 ms at speed 10. -/
theorem pacing_delay_matches_spec_formula :
    (∀ (t : PacingTunables) (deltaMs speed : ℚ),
      pacingDelay t deltaMs speed = specPacingDelay t deltaMs speed) ∧
    pacingDelayDefault 900000 1 = 250 ∧
    pacingDelayDefault 900000 10 = 40 := by
  refine ⟨?_, ?_, ?_⟩
  · intro t d s
    simp only [pacingDelay, specPacingDelay]
    rw [min_comm]
  · norm_num [pacingDelayDefault, pacingDelay, defaultTunables]
  · norm_num [pacingDelayDefault, pacingDelay, defaultTunables]

/-- C6: at the default tunables the pacing delay is monotonically
non-increasing in speed for a fixed nonnegative delta, and for every
input it lies between the minimum emit delay 1 and the dynamic maximum of
the given speed. -/
theorem pacing_delay_monotone_bounded :
    (∀ deltaMs s1 s2 : ℚ, 0 ≤ deltaMs → 1/10 ≤ s1 → s1 ≤ s2 →
      pacingDelayDefault deltaMs s2 ≤ pacingDelayDefault deltaMs s1) ∧
    (∀ deltaMs speed : ℚ,
      1 ≤ pacingDelayDefault deltaMs speed ∧
      pacingDelayDefault deltaMs speed ≤ max 20 (250 / max 1 (speed / 10))) := by
  constructor
  · intro d s1 s2 hd h1 h12
    simp only [pacingDelayDefault, pacingDelay, defaultTunables]
    have hm1 : (0 : ℚ) < max s1 (1/10) := lt_max_of_lt_right (by norm_num)
    have hm12 : max s1 (1/10) ≤ max s2 (1/10) := max_le_max h12 le_rfl
    have hd1 : (0 : ℚ) < max 1 (s1 / 10) := lt_max_of_lt_left one_pos
    have hd12 : max 1 (s1 / 10) ≤ max 1 (s2 / 10) :=
      max_le_max le_rfl (by linarith)
    have hnum : (0 : ℚ) ≤ d / 900000 * 400 := by positivity
    exact max_le_max le_rfl
      (min_le_min
        (max_le_max le_rfl (div_le_div_of_nonneg_left (by norm_num) hd1 hd12))
        (div_le_div_of_nonneg_left hnum hm1 hm12))
  · intro d s
    constructor
    · exact le_max_left 1 _
    · simp only [pacingDelayDefault, pacingDelay, defaultTunables]
      exact max_le (le_trans (by norm_num) (le_max_left 20 _)) (min_le_left _ _)

/-- The update step never changes the period. -/
theorem smaState_period (s : SimpleMovingAverage) (xs : List ℚ) :
    (smaState s xs).period = s.period := by
  induction xs generalizing s with
  | nil => rfl
  | cons x xs ih => exact (ih (s.update x).1).trans rfl

/-- One update step preserves the sliding-window invariant: if the window
holds the last values of the already-processed list and the sum is the
window sum, the same holds after pushing one more value. -/
theorem sma_update_inv (s : SimpleMovingAverage) (xs : List ℚ) (x : ℚ)
    (hper : 1 ≤ s.period)
    (hw : s.window = lastN (min xs.length s.period) xs)
    (hs : s.sum = s.window.sum) :
    (s.update x).1.window = lastN (min (xs.length + 1) s.period) (xs ++ [x]) ∧
    (s.update x).1.sum = (s.update x).1.window.sum := by
  have hlen : s.window.length = min xs.length s.period := by
    rw [hw]; simp [lastN, List.length_drop]; omega
  by_cases hfull : s.period ≤ xs.length
  · have hminxs : min xs.length s.period = s.period := min_eq_right hfull
    have hlenP : s.window.length = s.period := by rw [hlen, hminxs]
    have hwin : s.window = xs.drop (xs.length - s.period) := by
      rw [hw, hminxs]
      rfl
    obtain ⟨y, ys, hcons⟩ : ∃ y ys, s.window = y :: ys := by
      cases hwc : s.window with
      | nil => rw [hwc] at hlenP; simp at hlenP; omega
      | cons a l => exact ⟨a, l, rfl⟩
    have hcond : (s.window ++ [x]).length > s.period := by
      simp [List.length_append, hlenP]
    have hupd : (s.update x).1.window = ys ++ [x] ∧
        (s.update x).1.sum = s.sum + x - y := by
      constructor
      · show (if (s.window ++ [x]).length > s.period
            then (s.window ++ [x]).drop 1 else s.window ++ [x]) = ys ++ [x]
        rw [if_pos hcond, hcons]
        rfl
      · show (if (s.window ++ [x]).length > s.period
            then s.sum + x - (s.window ++ [x]).headD 0 else s.sum + x) = s.sum + x - y
        rw [if_pos hcond, hcons]
        rfl
    constructor
    · rw [hupd.1]
      have hmin2 : min (xs.length + 1) s.period = s.period := by omega
      rw [hmin2]
      show ys ++ [x] = (xs ++ [x]).drop ((xs ++ [x]).length - s.period)
      rw [List.length_append, List.length_singleton,
        List.drop_append_of_le_length (by omega)]
      congr 1
      have hys : ys = (xs.drop (xs.length - s.period)).tail := by
        rw [← hwin, hcons]
        rfl
      rw [hys, List.tail_drop]
      congr 1
      omega
    · rw [hupd.2, hupd.1, hs, hcons]
      simp only [List.sum_append, List.sum_cons, List.sum_nil]
      ring
  · push_neg at hfull
    have hminxs : min xs.length s.period = xs.length := by omega
    have hwin : s.window = xs := by
      rw [hw, hminxs]
      show xs.drop (xs.length - xs.length) = xs
      simp
    have hcond : ¬((s.window ++ [x]).length > s.period) := by
      simp [List.length_append, hwin]
      omega
    have hupd : (s.update x).1.window = s.window ++ [x] ∧
        (s.update x).1.sum = s.sum + x := by
      constructor
      · show (if (s.window ++ [x]).length > s.period
            then (s.window ++ [x]).drop 1 else s.window ++ [x]) = s.window ++ [x]
        rw [if_neg hcond]
      · show (if (s.window ++ [x]).length > s.period
            then s.sum + x - (s.window ++ [x]).headD 0 else s.sum + x) = s.sum + x
        rw [if_neg hcond]
    constructor
    · rw [hupd.1, hwin]
      have hmin2 : min (xs.length + 1) s.period = xs.length + 1 := by omega
      rw [hmin2]
      show xs ++ [x] = (xs ++ [x]).drop ((xs ++ [x]).length - (xs.length + 1))
      rw [List.length_append, List.length_singleton]
      simp
    · rw [hupd.2, hupd.1, hs, hwin]
      simp [List.sum_append]

/-- The sliding-window invariant holds at every state reached from a
fresh instance. -/
theorem smaState_inv (p : Int) (xs : List ℚ) :
    (smaState (SimpleMovingAverage.init p) xs).window =
      lastN (min xs.length (SimpleMovingAverage.init p).period) xs ∧
    (smaState (SimpleMovingAverage.init p) xs).sum =
      (smaState (SimpleMovingAverage.init p) xs).window.sum := by
  induction xs using List.reverseRecOn with
  | nil =>
    constructor
    · simp [smaState, lastN, SimpleMovingAverage.init]
    · simp [smaState, SimpleMovingAverage.init]
  | append_singleton xs x ih =>
    have hst : smaState (SimpleMovingAverage.init p) (xs ++ [x]) =
        ((smaState (SimpleMovingAverage.init p) xs).update x).1 := by
      simp [smaState, List.foldl_append]
    have hper : (smaState (SimpleMovingAverage.init p) xs).period =
        (SimpleMovingAverage.init p).period := smaState_period _ _
    have hper1 : 1 ≤ (smaState (SimpleMovingAverage.init p) xs).period := by
      rw [hper]
      simp [SimpleMovingAverage.init]
    have hw : (smaState (SimpleMovingAverage.init p) xs).window =
        lastN (min xs.length (smaState (SimpleMovingAverage.init p) xs).period) xs := by
      rw [hper]
      exact ih.1
    have step := sma_update_inv _ xs x hper1 hw ih.2
    constructor
    · rw [hst]
      simp only [List.length_append, List.length_singleton]
      rw [← hper]
      exact step.1
    · rw [hst]
      exact step.2

/-- C8: after any number of processed values the window holds exactly the
last min(n, period) values, the running sum is exactly the window sum,
and the window length never exceeds the period. -/
theorem sma_window_running_sum (p : Int) (xs : List ℚ) :
    (smaState (SimpleMovingAverage.init p) xs).window =
      lastN (min xs.length (SimpleMovingAverage.init p).period) xs ∧
    (smaState (SimpleMovingAverage.init p) xs).sum =
      (smaState (SimpleMovingAverage.init p) xs).window.sum ∧
    (smaState (SimpleMovingAverage.init p) xs).window.length ≤
      (SimpleMovingAverage.init p).period := by
  refine ⟨(smaState_inv p xs).1, (smaState_inv p xs).2, ?_⟩
  rw [(smaState_inv p xs).1]
  simp [lastN, List.length_drop]
  omega

/-- The i-th output of a run is the output of one update applied to the
state reached on the first i values. -/
theorem smaRun_get (s : SimpleMovingAverage) (xs : List ℚ) (i : Nat)
    (hi : i < xs.length) :
    (smaRun s xs).get? i =
      some ((smaState s (xs.take i)).update (xs.get ⟨i, hi⟩)).2 := by
  induction xs generalizing s i with
  | nil => simp at hi
  | cons x xs ih =>
    cases i with
    | zero => rfl
    | succ j =>
      have hj : j < xs.length := by simpa using hi
      have h1 : (smaRun s (x :: xs)).get? (j + 1) =
          (smaRun (s.update x).1 xs).get? j := rfl
      rw [h1, ih _ j hj]
      rfl

/-- The output component of one update, read off the updated state. -/
theorem sma_update_out (s : SimpleMovingAverage) (x : ℚ) :
    (s.update x).2 = if (s.update x).1.window.length < s.period then none
      else some ((s.update x).1.sum / ((s.update x).1.window.length : ℚ)) := rfl

/-- C7: the n-th call to update (position i, zero-based) returns none
while i + 1 is below the period, and the arithmetic mean of the last
period values (their sum divided by the period) once i + 1 reaches it;
with period 3 and inputs 1..5 the outputs are none, none, 2, 3, 4. -/
theorem sma_nth_output :
    (∀ (p : Nat) (xs : List ℚ) (i : Nat), 1 ≤ p → i < xs.length →
      (smaOutputs (p : Int) xs).get? i =
        some (if i + 1 < p then none
          else some ((lastN p (xs.take (i + 1))).sum / (p : ℚ)))) ∧
    smaOutputs 3 [1, 2, 3, 4, 5] = [none, none, some 2, some 3, some 4] := by
  constructor
  · intro p xs i hp hi
    rw [smaOutputs, smaRun_get _ _ i hi]
    congr 1
    have hperiod : (SimpleMovingAverage.init (p : Int)).period = p := by
      simp [SimpleMovingAverage.init]
      omega
    have hxv : xs[i]? = some (xs.get ⟨i, hi⟩) := by
      rw [List.getElem?_eq_getElem hi]
      rfl
    have htake : xs.take (i + 1) = xs.take i ++ [xs.get ⟨i, hi⟩] := by
      rw [List.take_succ, hxv]
      rfl
    have hA : smaState (SimpleMovingAverage.init (p : Int)) (xs.take (i + 1)) =
        ((smaState (SimpleMovingAverage.init (p : Int)) (xs.take i)).update
          (xs.get ⟨i, hi⟩)).1 := by
      simp only [smaState]
      rw [htake, List.foldl_append]
      rfl
    have hlen1 : (xs.take (i + 1)).length = i + 1 := by
      rw [List.length_take]
      omega
    have hinv := smaState_inv (p : Int) (xs.take (i + 1))
    have hwlen : ((smaState (SimpleMovingAverage.init (p : Int))
        (xs.take (i + 1))).window).length = min (i + 1) p := by
      rw [hinv.1, hperiod, hlen1]
      simp [lastN, List.length_drop]
      omega
    have hsper : (smaState (SimpleMovingAverage.init (p : Int))
        (xs.take i)).period = p := by
      rw [smaState_period, hperiod]
    rw [sma_update_out, ← hA, hwlen, hsper]
    by_cases hcase : i + 1 < p
    · rw [if_pos (by omega), if_pos hcase]
    · have hminp : min (i + 1) p = p := by omega
      rw [if_neg (by omega), if_neg hcase, hinv.2, hinv.1, hperiod, hlen1, hminp]
  · norm_num [smaOutputs, smaRun, smaState, SimpleMovingAverage.init,
      SimpleMovingAverage.update]

/-- C7 witness: the general output characterization applied at period 3,
inputs 1..5 and position 2 (the first warmed-up output). -/
theorem sma_nth_output_witness :
    (smaOutputs ((3 : Nat) : Int) [1, 2, 3, 4, 5]).get? 2 =
      some (if 2 + 1 < 3 then none
        else some ((lastN 3 (([1, 2, 3, 4, 5] : List ℚ).take (2 + 1))).sum /
          ((3 : Nat) : ℚ))) :=
  sma_nth_output.1 3 [1, 2, 3, 4, 5] 2 (by decide) (by decide)
theorem pacing_delay_monotone_bounded_witness :
    pacingDelayDefault 900000 10 ≤ pacingDelayDefault 900000 1 ∧
    (1 ≤ pacingDelayDefault 900000 1 ∧
      pacingDelayDefault 900000 1 ≤ max 20 (250 / max 1 ((1 : ℚ) / 10))) :=
  ⟨pacing_delay_monotone_bounded.1 900000 1 10 (by norm_num) (by norm_num)
      (by norm_num),
   pacing_delay_monotone_bounded.2 900000 1⟩

/-- The cursor order is reflexive. -/
theorem cursorLeB_refl (c : Option ℚ) : cursorLeB c c = true := by
  cases c with
  | none => rfl
  | some x => simp [cursorLeB]

/-- The cursor order is transitive. -/
theorem cursorLeB_trans (a b c : Option ℚ) (h1 : cursorLeB a b = true)
    (h2 : cursorLeB b c = true) : cursorLeB a c = true := by
  cases a with
  | none => rfl
  | some x =>
    cases b with
    | none => exact absurd h1 (by simp [cursorLeB])
    | some y =>
      cases c with
      | none => exact absurd h2 (by simp [cursorLeB])
      | some z =>
        simp [cursorLeB] at *
        exact le_trans h1 h2

/-- A batch that satisfies the data-source filter can only move the
cursor forward. -/
theorem processBatch_mono (c : Option ℚ) (rows : List Record)
    (hv : validBatchB c rows = true) :
    cursorLeB c (processBatch c rows) = true := by
  induction rows using List.reverseRecOn with
  | nil => exact cursorLeB_refl c
  | append_singleton l r _ =>
    have hr : afterCursorB c r.timestamp = true := by
      simp only [validBatchB, List.all_eq_true] at hv
      exact hv r (List.mem_append_right l (List.mem_singleton_self r))
    have hp : processBatch c (l ++ [r]) = some r.timestamp := by
      simp [processBatch, List.foldl_append]
    rw [hp]
    cases c with
    | none => rfl
    | some x =>
      simp [afterCursorB] at hr
      simp [cursorLeB]
      exact le_of_lt hr

/-- C9: the cursor after a non-empty batch is the timestamp of its last
record, an empty batch never changes the cursor, a valid batch can only
move the cursor forward, and over any run of valid batches the cursor is
monotonically non-decreasing. -/
theorem cursor_invariants :
    (∀ (c : Option ℚ) (rows : List Record) (r : Record),
      processBatch c (rows ++ [r]) = some r.timestamp) ∧
    (∀ c : Option ℚ, processBatch c [] = c) ∧
    (∀ (c : Option ℚ) (rows : List Record), validBatchB c rows = true →
      cursorLeB c (processBatch c rows) = true) ∧
    (∀ (c : Option ℚ) (bs : List (List Record)), validRunB c bs = true →
      cursorLeB c (runCursor c bs) = true) := by
  refine ⟨?_, fun c => rfl, processBatch_mono, ?_⟩
  · intro c rows r
    simp [processBatch, List.foldl_append]
  · intro c bs
    induction bs generalizing c with
    | nil => exact fun _ => cursorLeB_refl c
    | cons b bs ih =>
      intro hv
      simp only [validRunB, Bool.and_eq_true] at hv
      have h1 := processBatch_mono c b hv.1
      have h2 := ih (processBatch c b) hv.2
      exact cursorLeB_trans _ _ _ h1 h2

/-- C9 witness: the monotonicity parts at a concrete cursor and batch. -/
theorem cursor_invariants_witness :
    cursorLeB (some 1)
      (processBatch (some 1) [⟨2, "BTCUSDT", "15m", none, 1, 1, 1, 1, 1⟩]) = true ∧
    cursorLeB (some 1)
      (runCursor (some 1) [[⟨2, "BTCUSDT", "15m", none, 1, 1, 1, 1, 1⟩]]) = true :=
  ⟨cursor_invariants.2.2.1 (some 1) [⟨2, "BTCUSDT", "15m", none, 1, 1, 1, 1, 1⟩]
      (by simp [validBatchB, afterCursorB]),
   cursor_invariants.2.2.2 (some 1) [[⟨2, "BTCUSDT", "15m", none, 1, 1, 1, 1, 1⟩]]
      (by simp [validRunB, validBatchB, afterCursorB])⟩

/-- One control message never brings the speed below 0.1. -/
theorem applyMessage_speed_ge (st : PlaybackControlState) (msg : Json)
    (h : 1/10 ≤ st.speed) : 1/10 ≤ (applyMessage st msg).speed := by
  cases msg with
  | obj kvs =>
    simp only [applyMessage]
    split
    · split
      · exact le_max_left _ _
      · exact h
    · exact h
    · exact h
    · exact h
  | null => exact h
  | bool b => exact h
  | num q => exact h
  | str s => exact h
  | arr xs => exact h

/-- A whole message sequence never brings the speed below 0.1. -/
theorem runControl_speed_ge (msgs : List Json) (st : PlaybackControlState)
    (h : 1/10 ≤ st.speed) : 1/10 ≤ (runControl st msgs).speed := by
  induction msgs generalizing st with
  | nil => exact h
  | cons m msgs ih => exact ih (applyMessage st m) (applyMessage_speed_ge st m h)

/-- C10: the initial speed is the clamped parsed query parameter (1.0
when absent or unparseable), a successful SET_SPEED sets the speed to the
clamp of the parsed value, an unparseable SET_SPEED leaves the state
unchanged, and along every reachable control state the speed stays at
least 0.1. -/
theorem speed_invariants :
    (initialSpeed none = 1) ∧
    (∀ s v, pyFloatStr s = some v → initialSpeed (some s) = max (1/10) v) ∧
    (∀ s, pyFloatStr s = none → initialSpeed (some s) = 1) ∧
    (∀ (st : PlaybackControlState) (kvs : List (String × Json)) (v : ℚ),
      jsonGet kvs "type" = some (Json.str "SET_SPEED") →
      (jsonGet kvs "speed").bind pyFloatJson = some v →
      applyMessage st (Json.obj kvs) = { st with speed := max (1/10) v }) ∧
    (∀ (st : PlaybackControlState) (kvs : List (String × Json)),
      jsonGet kvs "type" = some (Json.str "SET_SPEED") →
      (jsonGet kvs "speed").bind pyFloatJson = none →
      applyMessage st (Json.obj kvs) = st) ∧
    (∀ (speedRaw : Option String) (msgs : List Json),
      1/10 ≤ (runControl (initControl speedRaw) msgs).speed) := by
  refine ⟨rfl, ?_, ?_, ?_, ?_, ?_⟩
  · intro s v hp
    simp [initialSpeed, hp]
  · intro s hp
    simp [initialSpeed, hp]
  · intro st kvs v ht hv
    simp [applyMessage, ht, hv]
  · intro st kvs ht hv
    simp [applyMessage, ht, hv]
  · intro speedRaw msgs
    refine runControl_speed_ge msgs _ ?_
    show 1/10 ≤ initialSpeed speedRaw
    cases speedRaw with
    | none => norm_num [initialSpeed]
    | some s =>
      simp only [initialSpeed]
      cases pyFloatStr s with
      | none => norm_num
      | some v => exact le_max_left _ _

/-- C10 witness: the theorem applied at the speed parameter abc (parse
failure), a SET_SPEED message carrying the number 3, a SET_SPEED message
carrying no parseable speed, and a concrete message sequence. -/
theorem speed_invariants_witness :
    initialSpeed (some "abc") = 1 ∧
    applyMessage ⟨1, false⟩
      (Json.obj [("type", Json.str "SET_SPEED"), ("speed", Json.num 3)]) =
      { speed := max (1/10) 3, paused := false } ∧
    applyMessage ⟨1, false⟩
      (Json.obj [("type", Json.str "SET_SPEED"), ("speed", Json.null)]) =
      ⟨1, false⟩ ∧
    initialSpeed (some "2.5") = max (1/10) (5/2) ∧
    1/10 ≤ (runControl (initControl (some "abc")) [Json.str "junk"]).speed :=
  ⟨speed_invariants.2.2.1 "abc" (by decide),
   speed_invariants.2.2.2.1 ⟨1, false⟩
     [("type", Json.str "SET_SPEED"), ("speed", Json.num 3)] 3 rfl rfl,
   speed_invariants.2.2.2.2.1 ⟨1, false⟩
     [("type", Json.str "SET_SPEED"), ("speed", Json.null)] rfl rfl,
   speed_invariants.2.1 "2.5" (5/2)
     (by simp +decide [pyFloatStr, digitsVal]; norm_num),
   speed_invariants.2.2.2.2.2 (some "abc") [Json.str "junk"]⟩
